import Mathlib

/-
Verification of the data-loading, filtering, aggregation and formatting
pipeline of the FMCG supply-chain dashboard (src/app/main.py).

Modelling conventions, used uniformly below:
- A pandas DataFrame is a `Table`: a column-name list plus a list of rows,
  each row an association list from column name to `Value` (string, integer,
  or null standing for NaN).  Cell values are strings or integers; dates are
  represented as integers (a datetime ordinal), so that pd.to_datetime on an
  already-typed column is the identity and date comparison is integer order.
- pandas column access df["c"] raises KeyError when c is absent, so the
  operations that perform it are Except-valued; df.get(c, default) is total.
- Python string comparison is code-point-wise lexicographic order and
  str.lower() is modelled as ASCII lowercasing; both are defined here
  structurally so the kernel can evaluate them on concrete inputs.
- the sorts whose output order the development relies on (Python sorted,
  the stable multi-column sort_values lexsort) are modelled with the stable
  `List.insertionSort`.
-/

inductive Value where
  | vStr : String → Value
  | vInt : Int → Value
  | vNull : Value
deriving DecidableEq

abbrev Row := List (String × Value)

structure Table where
  cols : List String
  rows : List Row
deriving DecidableEq

/-- Cell access within a row: the value a row holds for a column label, where a
label absent from the row reads as null (NaN). -/
def getCell (r : Row) (c : String) : Value :=
  (r.lookup c).getD Value.vNull

/-- Code-point-wise lexicographic strict comparison of character lists: the
order Python uses when it compares or sorts strings. -/
def strLtb : List Char → List Char → Bool
  | [], [] => false
  | [], _ :: _ => true
  | _ :: _, [] => false
  | a :: as, b :: bs =>
    if a.toNat < b.toNat then true
    else if b.toNat < a.toNat then false
    else strLtb as bs

/-- Strict string order (Python string comparison). -/
def pyStrLt (a b : String) : Prop := strLtb a.data b.data = true

/-- Weak string order (Python string comparison). -/
def pyStrLe (a b : String) : Prop := pyStrLt a b ∨ a = b

instance : DecidableRel pyStrLt :=
  fun a b => inferInstanceAs (Decidable (strLtb a.data b.data = true))

instance : DecidableRel pyStrLe :=
  fun a b => inferInstanceAs (Decidable (pyStrLt a b ∨ a = b))

/-- ASCII lowercasing of one character, modelling str.lower() as used in
urgency_label (uppercase A-Z mapped to a-z; other characters unchanged). -/
def pyLowerChar (c : Char) : Char :=
  if 65 ≤ c.toNat ∧ c.toNat ≤ 90 then Char.ofNat (c.toNat + 32) else c

/-- str.lower() over a whole string. -/
def pyLower (s : String) : String := String.mk (s.data.map pyLowerChar)

/-- Python str() applied to an optional string value; None prints as "None". -/
def pyStr : Option String → String
  | none => "None"
  | some s => s

/-- urgency_label from page_recommendations (main.py lines 236-242): stringify
the value, lowercase it, match against "high" and "medium"; anything else,
absent values included, gets the low label. -/
def urgency_label (val : Option String) : String :=
  let v := pyLower (pyStr val)
  if v = "high" then "🔴 High"
  else if v = "medium" then "🟠 Medium"
  else "🟢 Low"

/-- Row filter by column membership, df[df[c].isin(vs)]: pandas raises
KeyError when the frame has no column c, hence the Except result. -/
def Table.filterIsin (t : Table) (c : String) (vs : List String) : Except String Table :=
  if c ∈ t.cols then
    Except.ok { t with rows := t.rows.filter (fun r => decide (getCell r c ∈ vs.map Value.vStr)) }
  else Except.error ("KeyError: " ++ c)

/-- Integer (date) view of a cell; null and non-integer cells have none. -/
def cellInt (r : Row) (c : String) : Option Int :=
  match getCell r c with
  | Value.vInt i => some i
  | _ => none

/-- Row filter df[(df[c] >= lo) & (df[c] <= hi)], bounds inclusive; a NaN
date compares false on both sides, so such rows are dropped.  KeyError when
the column is absent. -/
def Table.filterDateBetween (t : Table) (c : String) (lo hi : Int) : Except String Table :=
  if c ∈ t.cols then
    Except.ok { t with rows := t.rows.filter (fun r =>
      match cellInt r c with
      | some d => decide (lo ≤ d ∧ d ≤ hi)
      | none => false) }
  else Except.error ("KeyError: " ++ c)

/-- applyFilters: the filter statements of page_forecasting (main.py lines
196-200) and page_recommendations (lines 230-233) combined into one function:
each filter runs exactly when its selection is non-empty (resp. the date
range is present), and then accesses its column unconditionally. -/
def applyFilters (t : Table) (skuSet supplierSet : List String)
    (dateRange : Option (Int × Int)) : Except String Table :=
  (match skuSet with
   | [] => Except.ok t
   | _ :: _ => t.filterIsin "sku" skuSet) >>= fun t1 =>
    (match supplierSet with
     | [] => Except.ok t1
     | _ :: _ => t1.filterIsin "supplier" supplierSet) >>= fun t2 =>
      match dateRange with
      | none => Except.ok t2
      | some (lo, hi) => t2.filterDateBetween "date" lo hi

/-- The assignment df_fc["date"] = pd.to_datetime(df_fc["date"]) at main.py
line 195: it reads the date column unconditionally, so it is a KeyError when
the column is absent; with dates modelled as integers the conversion itself
leaves the stored values unchanged. -/
def toDatetimeCol (t : Table) (c : String) : Except String Table :=
  if c ∈ t.cols then Except.ok t else Except.error ("KeyError: " ++ c)

/-- The filtering prefix of page_forecasting (main.py lines 191-200): empty
frame returns early, then the date conversion, the sku filter when the sku
selection is non-empty, and the date-range filter when a range is present. -/
def page_forecasting_filter (t : Table) (skus : List String)
    (dateRange : Option (Int × Int)) : Except String Table :=
  match t.rows with
  | [] => Except.ok t
  | _ :: _ =>
    toDatetimeCol t "date" >>= fun t1 =>
      (match skus with
       | [] => Except.ok t1
       | _ :: _ => t1.filterIsin "sku" skus) >>= fun t2 =>
        match dateRange with
        | none => Except.ok t2
        | some (lo, hi) => t2.filterDateBetween "date" lo hi

/-- The filtering prefix of page_recommendations (main.py lines 226-233):
empty frame returns early, then the sku filter when the sku selection is
non-empty and the supplier filter when the supplier selection is non-empty. -/
def page_recommendations_filter (t : Table) (skus suppliers : List String) :
    Except String Table :=
  match t.rows with
  | [] => Except.ok t
  | _ :: _ =>
    (match skus with
     | [] => Except.ok t
     | _ :: _ => t.filterIsin "sku" skus) >>= fun t1 =>
      match suppliers with
      | [] => Except.ok t1
      | _ :: _ => t1.filterIsin "supplier" suppliers

/-- The date clause of the row-keeping predicate: no range keeps every row, a
range keeps rows whose date lies within it inclusively. -/
def dateOk (dateRange : Option (Int × Int)) (r : Row) : Bool :=
  match dateRange with
  | none => true
  | some (lo, hi) =>
    match cellInt r "date" with
    | some d => decide (lo ≤ d ∧ d ≤ hi)
    | none => false

/-- The row-keeping predicate of the specification: a row is kept iff every
active filter admits it. -/
def keepRow (skuSet supplierSet : List String) (dateRange : Option (Int × Int))
    (r : Row) : Bool :=
  (match skuSet with
   | [] => true
   | _ :: _ => decide (getCell r "sku" ∈ skuSet.map Value.vStr)) &&
  ((match supplierSet with
    | [] => true
    | _ :: _ => decide (getCell r "supplier" ∈ supplierSet.map Value.vStr)) &&
  dateOk dateRange r)

/-- A small concrete recommendations-like table used to instantiate the
filtering theorems. -/
def sampleSkuTable : Table :=
  ⟨["sku", "supplier", "date"],
   [[("sku", Value.vStr "A"), ("supplier", Value.vStr "S1"), ("date", Value.vInt 1)],
    [("sku", Value.vStr "B"), ("supplier", Value.vStr "S2"), ("date", Value.vInt 2)],
    [("sku", Value.vStr "A"), ("supplier", Value.vStr "S2"), ("date", Value.vInt 3)]]⟩

/-- Splitting a character list on a separator (the structural core of line
and comma splitting in the CSV model). -/
def splitOnChar (sep : Char) : List Char → List (List Char)
  | [] => [[]]
  | c :: cs =>
    if c = sep then [] :: splitOnChar sep cs
    else
      match splitOnChar sep cs with
      | [] => [[c]]
      | h :: t2 => (c :: h) :: t2

/-- Non-blank lines of a byte string (pandas read_csv skips blank lines). -/
def splitLines (s : String) : List String :=
  ((splitOnChar (Char.ofNat 10) s.data).map String.mk).filter (fun l => decide (l ≠ ""))

/-- Joining chunks with a separator (the core of CSV serialization). -/
def joinChunks (sep : List Char) : List (List Char) → List Char
  | [] => []
  | [x] => x
  | x :: y :: t2 => x ++ sep ++ joinChunks sep (y :: t2)

/-- pd.read_csv applied to raw content, modelled structurally: empty content
is an EmptyDataError, a line whose field count differs from the header's is a
ParserError, and otherwise the header row gives the columns and every further
line gives a row.  Cell dtype inference is not modelled: parsed cells are
stored as strings. -/
def parseCsv (s : String) : Except String Table :=
  match splitLines s with
  | [] => Except.error "EmptyDataError"
  | header :: rest =>
    let cols := (splitOnChar ',' header.data).map String.mk
    let cells := rest.map (fun line => (splitOnChar ',' line.data).map String.mk)
    if cells.all (fun vs => decide (vs.length = cols.length)) then
      Except.ok ⟨cols, cells.map (fun vs => cols.zip (vs.map Value.vStr))⟩
    else Except.error "ParserError"

/-- One CSV cell as written back by df.to_csv. -/
def cellToCsv : Value → String
  | Value.vStr s => s
  | Value.vInt i => toString i
  | Value.vNull => ""

/-- df.to_csv(index=False): header line then one line per row, comma
separated. -/
def printCsv (t : Table) : String :=
  String.mk (joinChunks [Char.ofNat 10]
    ((joinChunks [','] (t.cols.map String.data)) ::
      t.rows.map (fun r => joinChunks [','] (t.cols.map (fun c => (cellToCsv (getCell r c)).data)))))

/-- The on-disk data directory: an association from file name to content. -/
def lookupFile (files : List (String × String)) (fname : String) : Option String :=
  files.lookup fname

/-- Overwrite (or create) one file of the data directory. -/
def setFile (files : List (String × String)) (fname content : String) :
    List (String × String) :=
  (fname, content) :: files.filter (fun p => decide (p.1 ≠ fname))

/-- load_csv body (main.py lines 74-78): a missing file yields an empty frame
without touching the parser; an existing file is parsed, and parse failures
propagate as exceptions. -/
def load_csv (files : List (String × String)) (fname : String) : Except String Table :=
  match lookupFile files fname with
  | none => Except.ok ⟨[], []⟩
  | some content => parseCsv content

/-- The mutable process state: the data directory plus the st.cache_data
memoization of load_csv (keyed by file name) and of get_all_data. -/
structure AppState where
  files : List (String × String)
  loadCache : List (String × Table)
  allCache : Option (List (String × Table))
deriving DecidableEq

/-- The st.cache_data memoization wrapper around load_csv: a cache hit
returns the memoized frame without reading storage; a miss reads storage and
memoizes a successful result. -/
def load_csv_cached (st : AppState) (fname : String) :
    Except String Table × AppState :=
  match st.loadCache.lookup fname with
  | some tb => (Except.ok tb, st)
  | none =>
    match load_csv st.files fname with
    | Except.ok tb => (Except.ok tb, { st with loadCache := (fname, tb) :: st.loadCache })
    | Except.error e => (Except.error e, st)

/-- st.cache_data.clear() (main.py line 309): drops every memoized result of
every cached loader, not only the uploaded dataset's. -/
def clearAllCaches (st : AppState) : AppState :=
  { st with loadCache := [], allCache := none }

/-- One uploader branch of sidebar_uploaders (main.py lines 301-309): parse
the uploaded bytes with pd.read_csv; on success re-serialize the parsed frame
over the slot's storage file and clear all caches; a parse failure raises
before any write happens, leaving the state untouched. -/
def sidebar_upload_step (st : AppState) (fname : String) (bytes : String) :
    Except String Unit × AppState :=
  match parseCsv bytes with
  | Except.error e => (Except.error e, st)
  | Except.ok df =>
    (Except.ok (), clearAllCaches { st with files := setFile st.files fname (printCsv df) })

/-- String view of a cell: some for string cells, none otherwise (dropna
drops the NaN cells; sku values are strings). -/
def strCellOf (r : Row) (c : String) : Option String :=
  match getCell r c with
  | Value.vStr s => some s
  | _ => none

/-- df.get(c, empty Series).dropna() restricted to string values: the string
cells of column c in row order, or nothing when the column is absent. -/
def colStrVals (t : Table) (c : String) : List String :=
  if c ∈ t.cols then t.rows.filterMap (fun r => strCellOf r c) else []

/-- availableSkus from sidebar_filters (main.py lines 110-113):
sorted(list(set(forecast skus + recommendation skus))), nulls dropped. -/
def availableSkus (fc reco : Table) : List String :=
  ((colStrVals fc "sku" ++ colStrVals reco "sku").dedup).insertionSort pyStrLe

/-- df.get(c, default) at frame level: the column's cells when the column
exists, the default otherwise. -/
def Table.getColD (t : Table) (c : String) (d : List Value) : List Value :=
  if c ∈ t.cols then t.rows.map (fun r => getCell r c) else d

/-- float() of a numeric cell, with numeric contents modelled as integers. -/
def valToInt : Value → Int
  | Value.vInt i => i
  | _ => 0

/-- KPI card extraction (main.py lines 161-165): for a non-empty kpis frame,
df.get(column, pd.Series([0])).iloc[0]; for an empty frame the guard yields
0 without touching the frame. -/
def kpiValue (t : Table) (c : String) : Int :=
  match t.rows with
  | [] => 0
  | _ :: _ =>
    match (t.getColD c [Value.vInt 0]).head? with
    | some v => valToInt v
    | none => 0

/-- The five KPI card values of page_kpi_dashboard, in display order. -/
def page_kpi_dashboard_values (t : Table) : Int × Int × Int × Int × Int :=
  (kpiValue t "total_sales", kpiValue t "avg_inventory_per_sku",
   kpiValue t "stockout_risk_pct", kpiValue t "avg_lead_time_days",
   kpiValue t "avg_delivery_time_days")

/-- Modelled from the claim's reading of the KPI cards: the row-0 entry of
the column when the frame is non-empty and the column exists, 0 otherwise. -/
def kpiRowZeroSpec (t : Table) (c : String) : Int :=
  match t.rows with
  | [] => 0
  | r :: _ => if c ∈ t.cols then valToInt (getCell r c) else 0

/-- Python str() view of a cell for the urgency_label call sites: strings
pass through, integers print, NaN becomes an absent value. -/
def cellAsPyStr : Value → Option String
  | Value.vStr s => some s
  | Value.vInt i => some (toString i)
  | Value.vNull => none

/-- The Urgency display column (main.py lines 244-246): appended only when an
urgency column exists, holding urgency_label of each row's urgency cell. -/
def addUrgencyCol (t : Table) : Table :=
  if "urgency" ∈ t.cols then
    ⟨t.cols ++ ["Urgency"],
     t.rows.map (fun r =>
       r ++ [("Urgency", Value.vStr (urgency_label (cellAsPyStr (getCell r "urgency"))))])⟩
  else t

/-- The fixed display column list of page_recommendations (lines 248-250). -/
def columnsToShow : List String :=
  ["sku", "current_stock", "reorder_point", "recommended_order_qty", "supplier",
   "transport_mode", "lead_time_days", "Urgency"]

/-- Column projection display[cs]: keep the listed columns in the listed
order. -/
def projectCols (t : Table) (cs : List String) : Table :=
  ⟨cs, t.rows.map (fun r => cs.map (fun c => (c, getCell r c)))⟩

/-- Sort key of a row for a string column (the sorted columns here hold
strings; other cells read as the empty string). -/
def rowStr (r : Row) (c : String) : String :=
  match getCell r c with
  | Value.vStr s => s
  | _ => ""

/-- The display row order of sort_values(["Urgency", "sku"]): plain textual
comparison of the Urgency label first, the sku second. -/
def reorderRowLe (r1 r2 : Row) : Prop :=
  pyStrLt (rowStr r1 "Urgency") (rowStr r2 "Urgency") ∨
  (rowStr r1 "Urgency" = rowStr r2 "Urgency" ∧ pyStrLe (rowStr r1 "sku") (rowStr r2 "sku"))

instance : DecidableRel reorderRowLe :=
  fun r1 r2 => inferInstanceAs
    (Decidable (pyStrLt (rowStr r1 "Urgency") (rowStr r2 "Urgency") ∨
      (rowStr r1 "Urgency" = rowStr r2 "Urgency" ∧
        pyStrLe (rowStr r1 "sku") (rowStr r2 "sku"))))

/-- The display columns that actually exist (line 251): the fixed list
filtered to the columns of the Urgency-extended frame. -/
def shownCols (t : Table) : List String :=
  columnsToShow.filter (fun c => decide (c ∈ (addUrgencyCol t).cols))

/-- The Reorder Suggestions table (main.py lines 244-259): add the Urgency
column, project onto the display columns that exist, and sort the rows by the
Urgency label string then by sku; sort_values raises a KeyError when a sort
key is not among the shown columns. -/
def reorderSuggestions (t : Table) : Except String Table :=
  if "Urgency" ∈ shownCols t ∧ "sku" ∈ shownCols t then
    Except.ok ⟨shownCols t,
      (projectCols (addUrgencyCol t) (shownCols t)).rows.insertionSort reorderRowLe⟩
  else Except.error "KeyError: sort key"

/-- A small concrete recommendations table with an urgency column. -/
def recoSample : Table :=
  ⟨["sku", "supplier", "urgency"],
   [[("sku", Value.vStr "B"), ("supplier", Value.vStr "S1"), ("urgency", Value.vStr "low")],
    [("sku", Value.vStr "A"), ("supplier", Value.vStr "S2"), ("urgency", Value.vStr "HIGH")],
    [("sku", Value.vStr "C"), ("supplier", Value.vStr "S3"), ("urgency", Value.vStr "medium")]]⟩

theorem strLtb_irrefl : ∀ l : List Char, strLtb l l = false
  | [] => rfl
  | a :: as => by simp [strLtb, strLtb_irrefl as]

theorem strLtb_trans (x : List Char) :
    ∀ y z, strLtb x y = true → strLtb y z = true → strLtb x z = true := by
  induction x with
  | nil =>
    intro y z h1 h2
    cases y with
    | nil => exact h2
    | cons b bs =>
      cases z with
      | nil => simp [strLtb] at h2
      | cons c cs => rfl
  | cons a as ih =>
    intro y z h1 h2
    cases y with
    | nil => simp [strLtb] at h1
    | cons b bs =>
      cases z with
      | nil => simp [strLtb] at h2
      | cons c cs =>
        simp only [strLtb] at h1 h2 ⊢
        by_cases hab : a.toNat < b.toNat
        · by_cases hbc : b.toNat < c.toNat
          · simp [Nat.lt_trans hab hbc]
          · rw [if_neg hbc] at h2
            by_cases hcb : c.toNat < b.toNat
            · rw [if_pos hcb] at h2
              simp at h2
            · have hac : a.toNat < c.toNat := by omega
              simp [hac]
        · rw [if_neg hab] at h1
          by_cases hba : b.toNat < a.toNat
          · rw [if_pos hba] at h1
            simp at h1
          · rw [if_neg hba] at h1
            by_cases hbc : b.toNat < c.toNat
            · have hac : a.toNat < c.toNat := by omega
              simp [hac]
            · rw [if_neg hbc] at h2
              by_cases hcb : c.toNat < b.toNat
              · rw [if_pos hcb] at h2
                simp at h2
              · rw [if_neg hcb] at h2
                have hac : ¬ a.toNat < c.toNat := by omega
                have hca : ¬ c.toNat < a.toNat := by omega
                simp only [if_neg hac, if_neg hca]
                exact ih bs cs h1 h2

theorem strLtb_eq_of_not (x : List Char) :
    ∀ y, strLtb x y = false → strLtb y x = false → x = y := by
  induction x with
  | nil =>
    intro y h1 _
    cases y with
    | nil => rfl
    | cons b bs => simp [strLtb] at h1
  | cons a as ih =>
    intro y h1 h2
    cases y with
    | nil => simp [strLtb] at h2
    | cons b bs =>
      simp only [strLtb] at h1 h2
      by_cases hab : a.toNat < b.toNat
      · simp [hab] at h1
      · by_cases hba : b.toNat < a.toNat
        · simp [hba] at h2
        · rw [if_neg hab, if_neg hba] at h1
          rw [if_neg hba, if_neg hab] at h2
          have hn : a.toNat = b.toNat := by omega
          have hc : a = b := Char.ext (UInt32.ext hn)
          rw [hc, ih bs h1 h2]

theorem pyStrLt_trans {a b c : String} (h1 : pyStrLt a b) (h2 : pyStrLt b c) :
    pyStrLt a c :=
  strLtb_trans _ _ _ h1 h2

theorem pyStrLt_irrefl (a : String) : ¬ pyStrLt a a := by
  simp [pyStrLt, strLtb_irrefl]

theorem pyStrLt_asymm {a b : String} (h1 : pyStrLt a b) (h2 : pyStrLt b a) : False :=
  pyStrLt_irrefl a (pyStrLt_trans h1 h2)

theorem pyStr_trichotomy (a b : String) : pyStrLt a b ∨ a = b ∨ pyStrLt b a := by
  by_cases h1 : pyStrLt a b
  · exact Or.inl h1
  · by_cases h2 : pyStrLt b a
    · exact Or.inr (Or.inr h2)
    · refine Or.inr (Or.inl ?_)
      have e1 : strLtb a.data b.data = false := by
        revert h1
        unfold pyStrLt
        cases strLtb a.data b.data <;> simp
      have e2 : strLtb b.data a.data = false := by
        revert h2
        unfold pyStrLt
        cases strLtb b.data a.data <;> simp
      have : a.data = b.data := strLtb_eq_of_not _ _ e1 e2
      cases a
      cases b
      simp_all

theorem pyStrLe_refl (a : String) : pyStrLe a a := Or.inr rfl

theorem pyStrLe_trans {a b c : String} (h1 : pyStrLe a b) (h2 : pyStrLe b c) :
    pyStrLe a c := by
  rcases h1 with h1 | rfl
  · rcases h2 with h2 | rfl
    · exact Or.inl (pyStrLt_trans h1 h2)
    · exact Or.inl h1
  · exact h2

theorem pyStrLe_total (a b : String) : pyStrLe a b ∨ pyStrLe b a := by
  rcases pyStr_trichotomy a b with h | h | h
  · exact Or.inl (Or.inl h)
  · exact Or.inl (Or.inr h)
  · exact Or.inr (Or.inl h)

theorem pyStrLe_antisymm {a b : String} (h1 : pyStrLe a b) (h2 : pyStrLe b a) :
    a = b := by
  rcases h1 with h1 | rfl
  · rcases h2 with h2 | rfl
    · exact absurd (pyStrLt_trans h1 h2) (pyStrLt_irrefl a)
    · rfl
  · rfl

theorem pyStrLt_of_le_of_ne {a b : String} (h1 : pyStrLe a b) (h2 : a ≠ b) :
    pyStrLt a b := by
  rcases h1 with h1 | rfl
  · exact h1
  · exact absurd rfl h2

theorem eBindOk {ε α β : Type} (a : α) (f : α → Except ε β) :
    (Except.ok a >>= f) = f a := rfl

theorem eBindErr {ε α β : Type} (e : ε) (f : α → Except ε β) :
    ((Except.error e : Except ε α) >>= f) = Except.error e := rfl

theorem isOkOk {ε α : Type} (a : α) : (Except.ok a : Except ε α).isOk = true := rfl

theorem isOkErr {ε α : Type} (e : ε) : (Except.error e : Except ε α).isOk = false := rfl

theorem boolAndRot (a b c : Bool) : (c && (b && a)) = (a && (b && c)) := by
  cases a <;> cases b <;> cases c <;> rfl

theorem boolAndTrueComm (a b : Bool) : (b && a) = (a && (b && true)) := by
  cases a <;> cases b <;> rfl

/-- C4: urgency_label is a case-insensitive match against "high" and "medium";
"HIGH", "High" and "high" all give the identical high label, every other
input, None included, gives the low label, and the function always returns
exactly one of the three labels. -/
theorem urgency_label_spec :
    (∀ v : Option String,
      (urgency_label v = "🔴 High" ↔ pyLower (pyStr v) = "high") ∧
      (urgency_label v = "🟠 Medium" ↔ pyLower (pyStr v) = "medium") ∧
      (urgency_label v = "🟢 Low" ↔
        (pyLower (pyStr v) ≠ "high" ∧ pyLower (pyStr v) ≠ "medium")) ∧
      (urgency_label v = "🔴 High" ∨ urgency_label v = "🟠 Medium" ∨
        urgency_label v = "🟢 Low")) ∧
    urgency_label (some "HIGH") = "🔴 High" ∧
    urgency_label (some "High") = "🔴 High" ∧
    urgency_label (some "high") = "🔴 High" ∧
    urgency_label (some "unknown") = "🟢 Low" ∧
    urgency_label none = "🟢 Low" := by
  refine ⟨fun v => ?_, by decide, by decide, by decide, by decide, by decide⟩
  by_cases h1 : pyLower (pyStr v) = "high"
  · simp [urgency_label, h1]
  · by_cases h2 : pyLower (pyStr v) = "medium"
    · simp [urgency_label, h1, h2]
    · simp [urgency_label, h1, h2]

/-- C1 counterexample: filtering a non-empty table that lacks the supplier
column with a non-empty supplier selection raises a KeyError instead of
returning a result, and the forecasting page's filter prefix raises on a
non-empty table lacking the date column even with no date range active. -/
theorem applyFilters_missing_column_error :
    applyFilters ⟨["sku"], [[("sku", Value.vStr "A")]]⟩ [] ["S"] none
      = Except.error "KeyError: supplier" ∧
    page_forecasting_filter ⟨["sku"], [[("sku", Value.vStr "A")]]⟩ [] none
      = Except.error "KeyError: date" := ⟨rfl, rfl⟩

/-- C1 amended: the sidebar .get lookups default on missing columns, but the
filter statements guard only on the emptiness of their selections: filtering
succeeds exactly when every active filter's column is present, and the
forecasting filter prefix additionally requires the date column of every
non-empty table (its unconditional to_datetime access). -/
theorem applyFilters_guard_iff :
    ∀ (t : Table) (sk sup : List String) (dr : Option (Int × Int)),
      ((applyFilters t sk sup dr).isOk = true ↔
        ((sk = [] ∨ "sku" ∈ t.cols) ∧ (sup = [] ∨ "supplier" ∈ t.cols) ∧
          (dr = none ∨ "date" ∈ t.cols))) ∧
      ((page_forecasting_filter t sk dr).isOk = true ↔
        (t.rows = [] ∨ ("date" ∈ t.cols ∧ (sk = [] ∨ "sku" ∈ t.cols)))) := by
  intro t sk sup dr
  constructor
  · cases sk with
    | nil =>
      cases sup with
      | nil =>
        cases dr with
        | none => simp [applyFilters, eBindOk, isOkOk]
        | some p =>
          rcases p with ⟨lo, hi⟩
          by_cases hd : "date" ∈ t.cols <;>
            simp [applyFilters, eBindOk, Table.filterDateBetween, hd, isOkOk, isOkErr]
      | cons b bs =>
        by_cases hs : "supplier" ∈ t.cols
        · cases dr with
          | none =>
            simp [applyFilters, eBindOk, Table.filterIsin, hs, isOkOk]
          | some p =>
            rcases p with ⟨lo, hi⟩
            by_cases hd : "date" ∈ t.cols <;>
              simp [applyFilters, eBindOk, Table.filterIsin, Table.filterDateBetween,
                hs, hd, isOkOk, isOkErr]
        · simp [applyFilters, eBindOk, eBindErr, Table.filterIsin, hs, isOkErr]
    | cons a as =>
      by_cases hk : "sku" ∈ t.cols
      · cases sup with
        | nil =>
          cases dr with
          | none => simp [applyFilters, eBindOk, Table.filterIsin, hk, isOkOk]
          | some p =>
            rcases p with ⟨lo, hi⟩
            by_cases hd : "date" ∈ t.cols <;>
              simp [applyFilters, eBindOk, Table.filterIsin, Table.filterDateBetween,
                hk, hd, isOkOk, isOkErr]
        | cons b bs =>
          by_cases hs : "supplier" ∈ t.cols
          · cases dr with
            | none =>
              simp [applyFilters, eBindOk, Table.filterIsin, hk, hs, isOkOk]
            | some p =>
              rcases p with ⟨lo, hi⟩
              by_cases hd : "date" ∈ t.cols <;>
                simp [applyFilters, eBindOk, Table.filterIsin, Table.filterDateBetween,
                  hk, hs, hd, isOkOk, isOkErr]
          · simp [applyFilters, eBindOk, eBindErr, Table.filterIsin, hk, hs, isOkErr]
      · simp [applyFilters, eBindOk, eBindErr, Table.filterIsin, hk, isOkErr]
  · cases hr : t.rows with
    | nil => simp [page_forecasting_filter, hr, isOkOk]
    | cons r rs =>
      have hne : ¬ t.rows = [] := by
        rw [hr]
        simp
      by_cases hd : "date" ∈ t.cols
      · cases sk with
        | nil =>
          rcases dr with _ | ⟨lo, hi⟩ <;>
            simp [page_forecasting_filter, hr, toDatetimeCol, hd, eBindOk, isOkOk, hne,
              Table.filterDateBetween]
        | cons a as =>
          by_cases hk : "sku" ∈ t.cols
          · rcases dr with _ | ⟨lo, hi⟩ <;>
              simp [page_forecasting_filter, hr, toDatetimeCol, Table.filterIsin,
                Table.filterDateBetween, hd, hk, eBindOk, isOkOk, hne]
          · simp [page_forecasting_filter, hr, toDatetimeCol, Table.filterIsin,
              hd, hk, eBindOk, eBindErr, isOkErr, hne]
      · simp [page_forecasting_filter, hr, toDatetimeCol, hd, eBindErr, isOkErr, hne]

/-- C3 counterexample: applyFilters is not the claimed row-keeping function
on every table: on a table without a supplier column, a non-empty supplier
selection makes it raise a KeyError instead of returning the rows satisfying
the filter predicate. -/
theorem applyFilters_not_rowkeeping_counterexample :
    applyFilters ⟨["sku", "date"], [[("sku", Value.vStr "A"), ("date", Value.vInt 1)]]⟩
        [] ["X"] none
      = Except.error "KeyError: supplier" ∧
    ¬ applyFilters ⟨["sku", "date"], [[("sku", Value.vStr "A"), ("date", Value.vInt 1)]]⟩
        [] ["X"] none
      = Except.ok ⟨["sku", "date"],
          ([[("sku", Value.vStr "A"), ("date", Value.vInt 1)]] : List Row).filter
            (keepRow [] ["X"] none)⟩ := by
  refine ⟨rfl, ?_⟩
  intro h
  rw [(rfl : applyFilters ⟨["sku", "date"], [[("sku", Value.vStr "A"), ("date", Value.vInt 1)]]⟩
        [] ["X"] none = Except.error "KeyError: supplier")] at h
  exact Except.noConfusion h

/-- C3: when each active filter's column is present, applyFilters succeeds and
keeps exactly the rows satisfying the conjunction of the active per-row
conditions, in their original relative order (the kept rows are a sublist of
the input rows), and with no active selection it is the identity. -/
theorem applyFilters_keeps_exactly (t : Table) (sk sup : List String)
    (dr : Option (Int × Int))
    (h1 : sk ≠ [] → "sku" ∈ t.cols) (h2 : sup ≠ [] → "supplier" ∈ t.cols)
    (h3 : dr ≠ none → "date" ∈ t.cols) :
    applyFilters t sk sup dr = Except.ok ⟨t.cols, t.rows.filter (keepRow sk sup dr)⟩ ∧
    (t.rows.filter (keepRow sk sup dr)).Sublist t.rows ∧
    applyFilters t [] [] none = Except.ok t := by
  refine ⟨?_, List.filter_sublist _, rfl⟩
  cases sk with
  | nil =>
    cases sup with
    | nil =>
      cases dr with
      | none =>
        have hf : t.rows.filter (keepRow [] [] none) = t.rows :=
          List.filter_eq_self.mpr (fun r _ => rfl)
        rw [hf]
        rfl
      | some p =>
        rcases p with ⟨lo, hi⟩
        have hd : "date" ∈ t.cols := h3 (by simp)
        simp only [applyFilters, Table.filterDateBetween, eBindOk, if_pos hd]
        rfl
    | cons b bs =>
      have hs : "supplier" ∈ t.cols := h2 (by simp)
      cases dr with
      | none =>
        simp only [applyFilters, Table.filterIsin, eBindOk, if_pos hs]
        refine congrArg Except.ok (congrArg (Table.mk t.cols) ?_)
        refine List.filter_congr (fun x _ => ?_)
        exact (Bool.and_true _).symm
      | some p =>
        rcases p with ⟨lo, hi⟩
        have hd : "date" ∈ t.cols := h3 (by simp)
        simp only [applyFilters, Table.filterIsin, Table.filterDateBetween, eBindOk,
          if_pos hs, if_pos hd, List.filter_filter]
        refine congrArg Except.ok (congrArg (Table.mk t.cols) ?_)
        refine List.filter_congr (fun x _ => ?_)
        exact Bool.and_comm _ _
  | cons a as =>
    have hk : "sku" ∈ t.cols := h1 (by simp)
    cases sup with
    | nil =>
      cases dr with
      | none =>
        simp only [applyFilters, Table.filterIsin, eBindOk, if_pos hk]
        refine congrArg Except.ok (congrArg (Table.mk t.cols) ?_)
        refine List.filter_congr (fun x _ => ?_)
        exact (Bool.and_true _).symm
      | some p =>
        rcases p with ⟨lo, hi⟩
        have hd : "date" ∈ t.cols := h3 (by simp)
        simp only [applyFilters, Table.filterIsin, Table.filterDateBetween, eBindOk,
          if_pos hk, if_pos hd, List.filter_filter]
        refine congrArg Except.ok (congrArg (Table.mk t.cols) ?_)
        refine List.filter_congr (fun x _ => ?_)
        exact Bool.and_comm _ _
    | cons b bs =>
      have hs : "supplier" ∈ t.cols := h2 (by simp)
      cases dr with
      | none =>
        simp only [applyFilters, Table.filterIsin, eBindOk, if_pos hk, if_pos hs,
          List.filter_filter]
        refine congrArg Except.ok (congrArg (Table.mk t.cols) ?_)
        refine List.filter_congr (fun x _ => ?_)
        exact boolAndTrueComm _ _
      | some p =>
        rcases p with ⟨lo, hi⟩
        have hd : "date" ∈ t.cols := h3 (by simp)
        simp only [applyFilters, Table.filterIsin, Table.filterDateBetween, eBindOk,
          if_pos hk, if_pos hs, if_pos hd, List.filter_filter]
        refine congrArg Except.ok (congrArg (Table.mk t.cols) ?_)
        refine List.filter_congr (fun x _ => ?_)
        exact boolAndRot _ _ _

/-- Witness for applyFilters_keeps_exactly: the sku filter with selection
set A keeps exactly the two sku-A rows of the sample table, in order. -/
theorem applyFilters_keeps_exactly_witness :
    ((["A"] : List String) ≠ [] → "sku" ∈ sampleSkuTable.cols) ∧
    (([] : List String) ≠ [] → "supplier" ∈ sampleSkuTable.cols) ∧
    ((none : Option (Int × Int)) ≠ none → "date" ∈ sampleSkuTable.cols) ∧
    (applyFilters sampleSkuTable ["A"] [] none
        = Except.ok ⟨sampleSkuTable.cols, sampleSkuTable.rows.filter (keepRow ["A"] [] none)⟩ ∧
      (sampleSkuTable.rows.filter (keepRow ["A"] [] none)).Sublist sampleSkuTable.rows ∧
      applyFilters sampleSkuTable [] [] none = Except.ok sampleSkuTable) :=
  ⟨by decide, by decide, by decide,
   applyFilters_keeps_exactly sampleSkuTable ["A"] [] none (by decide) (by decide) (by decide)⟩

/-- C8: loading a dataset whose backing file does not exist returns an empty
table and raises no exception. -/
theorem load_csv_missing_file (files : List (String × String)) (fname : String)
    (h : lookupFile files fname = none) :
    load_csv files fname = Except.ok ⟨[], []⟩ := by
  unfold load_csv
  rw [h]

/-- Witness for load_csv_missing_file: forecast.csv absent from a store that
only holds sales.csv. -/
theorem load_csv_missing_file_witness :
    lookupFile [("sales.csv", "sku,qty\nA,1")] "forecast.csv" = none ∧
    load_csv [("sales.csv", "sku,qty\nA,1")] "forecast.csv" = Except.ok ⟨[], []⟩ :=
  ⟨rfl, load_csv_missing_file _ _ rfl⟩

/-- C6: uploading unparseable content reports the parse failure and leaves the
whole file store, in particular the targeted slot's existing file,
byte-for-byte unchanged. -/
theorem upload_error_no_mutation (st : AppState) (fname bytes e : String)
    (h : parseCsv bytes = Except.error e) :
    sidebar_upload_step st fname bytes = (Except.error e, st) := by
  unfold sidebar_upload_step
  rw [h]

/-- Witness for upload_error_no_mutation: a ragged, non-tabular byte stream
uploaded to the sales slot leaves the existing sales.csv unchanged. -/
theorem upload_error_no_mutation_witness :
    parseCsv "a,b\n1,2,3" = Except.error "ParserError" ∧
    sidebar_upload_step ⟨[("sales.csv", "sku,qty\nA,1")], [], none⟩ "sales.csv" "a,b\n1,2,3"
      = (Except.error "ParserError", ⟨[("sales.csv", "sku,qty\nA,1")], [], none⟩) :=
  ⟨rfl, upload_error_no_mutation _ _ _ _ rfl⟩

/-- C7: a successful upload to any one slot reports success, clears every
memoized dataset (the per-file memo and the all-datasets memo alike), and a
subsequent load of every dataset, not only the uploaded one, reads the file
store freshly. -/
theorem upload_invalidates_all_caches (st : AppState) (fname bytes : String)
    (df : Table) (name : String) (h : parseCsv bytes = Except.ok df) :
    (sidebar_upload_step st fname bytes).1 = Except.ok () ∧
    (sidebar_upload_step st fname bytes).2.loadCache = [] ∧
    (sidebar_upload_step st fname bytes).2.allCache = none ∧
    (load_csv_cached (sidebar_upload_step st fname bytes).2 name).1
      = load_csv (sidebar_upload_step st fname bytes).2.files name := by
  have hfresh : ∀ st2 : AppState, st2.loadCache = [] →
      (load_csv_cached st2 name).1 = load_csv st2.files name := by
    intro st2 h2
    unfold load_csv_cached
    rw [h2]
    cases hl : load_csv st2.files name <;> simp [List.lookup, hl]
  unfold sidebar_upload_step
  rw [h]
  exact ⟨rfl, rfl, rfl, hfresh _ rfl⟩

/-- Witness for upload_invalidates_all_caches: uploading a one-column table
to the sales slot from a state whose caches are populated. -/
theorem upload_invalidates_all_caches_witness :
    parseCsv "a\n1" = Except.ok ⟨["a"], [[("a", Value.vStr "1")]]⟩ ∧
    ((sidebar_upload_step
        ⟨[("sales.csv", "x")], [("kpis.csv", ⟨["k"], []⟩)], some []⟩
        "sales.csv" "a\n1").1 = Except.ok () ∧
      (sidebar_upload_step
        ⟨[("sales.csv", "x")], [("kpis.csv", ⟨["k"], []⟩)], some []⟩
        "sales.csv" "a\n1").2.loadCache = [] ∧
      (sidebar_upload_step
        ⟨[("sales.csv", "x")], [("kpis.csv", ⟨["k"], []⟩)], some []⟩
        "sales.csv" "a\n1").2.allCache = none ∧
      (load_csv_cached (sidebar_upload_step
        ⟨[("sales.csv", "x")], [("kpis.csv", ⟨["k"], []⟩)], some []⟩
        "sales.csv" "a\n1").2 "kpis.csv").1
        = load_csv (sidebar_upload_step
        ⟨[("sales.csv", "x")], [("kpis.csv", ⟨["k"], []⟩)], some []⟩
        "sales.csv" "a\n1").2.files "kpis.csv") :=
  ⟨rfl, upload_invalidates_all_caches _ _ _ _ _ rfl⟩

theorem strCellOf_eq_some (r : Row) (c s : String) :
    strCellOf r c = some s ↔ getCell r c = Value.vStr s := by
  unfold strCellOf
  cases h : getCell r c <;> simp

/-- C9: availableSkus is the deduplicated union of the sku-column string
values of the two tables (nulls excluded), sorted strictly ascending in the
code-point string order; a table without a sku column contributes nothing. -/
theorem availableSkus_spec :
    ∀ fc reco : Table,
      (availableSkus fc reco).Pairwise pyStrLt ∧
      (∀ s : String, s ∈ availableSkus fc reco ↔
        (("sku" ∈ fc.cols ∧ ∃ r ∈ fc.rows, getCell r "sku" = Value.vStr s) ∨
         ("sku" ∈ reco.cols ∧ ∃ r ∈ reco.rows, getCell r "sku" = Value.vStr s))) := by
  intro fc reco
  constructor
  · have hsorted : (availableSkus fc reco).Pairwise pyStrLe :=
      @List.sorted_insertionSort String pyStrLe _ ⟨pyStrLe_total⟩
        ⟨fun _ _ _ => pyStrLe_trans⟩ _
    have hnd : (availableSkus fc reco).Nodup :=
      ((List.perm_insertionSort pyStrLe _).symm).nodup (List.nodup_dedup _)
    exact (hsorted.and hnd).imp (fun h => pyStrLt_of_le_of_ne h.1 h.2)
  · intro s
    unfold availableSkus
    rw [List.mem_insertionSort, List.mem_dedup, List.mem_append]
    unfold colStrVals
    constructor
    · rintro (h | h)
      · by_cases hc : "sku" ∈ fc.cols
        · rw [if_pos hc] at h
          rcases List.mem_filterMap.mp h with ⟨r, hr, he⟩
          exact Or.inl ⟨hc, r, hr, (strCellOf_eq_some r "sku" s).mp he⟩
        · rw [if_neg hc] at h
          cases h
      · by_cases hc : "sku" ∈ reco.cols
        · rw [if_pos hc] at h
          rcases List.mem_filterMap.mp h with ⟨r, hr, he⟩
          exact Or.inr ⟨hc, r, hr, (strCellOf_eq_some r "sku" s).mp he⟩
        · rw [if_neg hc] at h
          cases h
    · rintro (⟨hc, r, hr, he⟩ | ⟨hc, r, hr, he⟩)
      · refine Or.inl ?_
        rw [if_pos hc]
        exact List.mem_filterMap.mpr ⟨r, hr, (strCellOf_eq_some r "sku" s).mpr he⟩
      · refine Or.inr ?_
        rw [if_pos hc]
        exact List.mem_filterMap.mpr ⟨r, hr, (strCellOf_eq_some r "sku" s).mpr he⟩

theorem kpiValue_eq_rowZero (t : Table) (c : String) :
    kpiValue t c = kpiRowZeroSpec t c := by
  cases t with
  | mk cols rows =>
    cases rows with
    | nil => rfl
    | cons r rs =>
      unfold kpiValue kpiRowZeroSpec Table.getColD
      by_cases hc : c ∈ cols
      · simp [hc]
      · simp [hc, valToInt]

/-- C10: every KPI card of the dashboard shows the row-0 entry of its column
of the kpis table, with 0 when the table is empty or the column is missing;
rows beyond the first never contribute. -/
theorem page_kpi_dashboard_row_zero :
    ∀ t : Table,
      page_kpi_dashboard_values t =
        (kpiRowZeroSpec t "total_sales", kpiRowZeroSpec t "avg_inventory_per_sku",
         kpiRowZeroSpec t "stockout_risk_pct", kpiRowZeroSpec t "avg_lead_time_days",
         kpiRowZeroSpec t "avg_delivery_time_days") := by
  intro t
  unfold page_kpi_dashboard_values
  rw [kpiValue_eq_rowZero, kpiValue_eq_rowZero, kpiValue_eq_rowZero,
    kpiValue_eq_rowZero, kpiValue_eq_rowZero]

theorem reorderRowLe_trans {a b c : Row} (h1 : reorderRowLe a b)
    (h2 : reorderRowLe b c) : reorderRowLe a c := by
  rcases h1 with h1 | ⟨h1e, h1s⟩
  · rcases h2 with h2 | ⟨h2e, h2s⟩
    · exact Or.inl (pyStrLt_trans h1 h2)
    · exact Or.inl (h2e ▸ h1)
  · rcases h2 with h2 | ⟨h2e, h2s⟩
    · exact Or.inl (h1e ▸ h2)
    · exact Or.inr ⟨h1e.trans h2e, pyStrLe_trans h1s h2s⟩

theorem reorderRowLe_total (a b : Row) : reorderRowLe a b ∨ reorderRowLe b a := by
  rcases pyStr_trichotomy (rowStr a "Urgency") (rowStr b "Urgency") with h | h | h
  · exact Or.inl (Or.inl h)
  · rcases pyStrLe_total (rowStr a "sku") (rowStr b "sku") with hs | hs
    · exact Or.inl (Or.inr ⟨h, hs⟩)
    · exact Or.inr (Or.inr ⟨h.symm, hs⟩)
  · exact Or.inr (Or.inl h)

/-- C5: on every filtered recommendations table having urgency and sku
columns, the displayed rows are a permutation of the projected display rows,
ordered primarily by the urgency label text ascending and secondarily by sku
ascending; the textual label order places the high label before the medium
label before the low label, which is what fixes the relative order of the
three urgency groups. -/
theorem reorderSuggestions_sorted (t : Table)
    (hu : "urgency" ∈ t.cols) (hs : "sku" ∈ t.cols) :
    reorderSuggestions t = Except.ok ⟨shownCols t,
      (projectCols (addUrgencyCol t) (shownCols t)).rows.insertionSort reorderRowLe⟩ ∧
    ((projectCols (addUrgencyCol t) (shownCols t)).rows.insertionSort
        reorderRowLe).Pairwise reorderRowLe ∧
    ((projectCols (addUrgencyCol t) (shownCols t)).rows.insertionSort
        reorderRowLe).Perm (projectCols (addUrgencyCol t) (shownCols t)).rows ∧
    pyStrLt "🔴 High" "🟠 Medium" ∧ pyStrLt "🟠 Medium" "🟢 Low" := by
  have hcols : (addUrgencyCol t).cols = t.cols ++ ["Urgency"] := by
    unfold addUrgencyCol
    rw [if_pos hu]
  have hUm : "Urgency" ∈ (addUrgencyCol t).cols := by
    rw [hcols]
    simp
  have hsm : "sku" ∈ (addUrgencyCol t).cols := by
    rw [hcols]
    simp [hs]
  have hcond : "Urgency" ∈ shownCols t ∧ "sku" ∈ shownCols t := by
    constructor
    · rw [shownCols, List.mem_filter]
      exact ⟨by simp [columnsToShow], by simpa using hUm⟩
    · rw [shownCols, List.mem_filter]
      exact ⟨by simp [columnsToShow], by simpa using hsm⟩
  refine ⟨?_, ?_, List.perm_insertionSort _ _, by decide, by decide⟩
  · unfold reorderSuggestions
    rw [if_pos hcond]
  · exact @List.sorted_insertionSort Row reorderRowLe _ ⟨reorderRowLe_total⟩
      ⟨fun _ _ _ => reorderRowLe_trans⟩ _

/-- Witness for reorderSuggestions_sorted on a three-row table with one row
of each urgency level. -/
theorem reorderSuggestions_sorted_witness :
    ("urgency" ∈ recoSample.cols ∧ "sku" ∈ recoSample.cols) ∧
    (reorderSuggestions recoSample = Except.ok ⟨shownCols recoSample,
        (projectCols (addUrgencyCol recoSample)
          (shownCols recoSample)).rows.insertionSort reorderRowLe⟩ ∧
      ((projectCols (addUrgencyCol recoSample)
          (shownCols recoSample)).rows.insertionSort reorderRowLe).Pairwise reorderRowLe ∧
      ((projectCols (addUrgencyCol recoSample)
          (shownCols recoSample)).rows.insertionSort reorderRowLe).Perm
        (projectCols (addUrgencyCol recoSample) (shownCols recoSample)).rows ∧
      pyStrLt "🔴 High" "🟠 Medium" ∧ pyStrLt "🟠 Medium" "🟢 Low") :=
  ⟨⟨by decide, by decide⟩, reorderSuggestions_sorted recoSample (by decide) (by decide)⟩
